import Mathlib

/-!
# Vertex-colour stream behaviour and asset-importer drag and drop

A shallow embedding of two source files:

* `dev/Code/Tools/SceneAPI/SceneData/Behaviors/MeshAdvancedRule.cpp`
  (namespace `MeshAdvancedRule` below),
* `dev/Code/Sandbox/Editor/AssetImporter/AssetImporterManager/AssetImporterDragAndDropHandler.cpp`
  (namespace `AssetImporterDragAndDropHandler` below).

Pointers to mutable objects become explicit state passing: a function that
mutates an object through a pointer returns the new value of the object, and
the diagnostics and setter calls it performs are returned as a list of events.
-/

namespace MeshAdvancedRule

/-! ## Data model -/

/-- Run-time class of the content attached to a graph node
(`DataTypes::IGraphObject` and the interfaces the behaviour filters on). -/
inductive IGraphObject where
  | IMeshVertexColorData
  | IMeshVertexUVData
  | IMeshData
  | Other
  deriving DecidableEq, Repr

/-- One node of the scene graph: its name (`GetNodeName(i).GetName()`) and its
content (`shared_ptr<IGraphObject>`, which may be null). -/
structure Node where
  name : String
  content : Option IGraphObject
  deriving DecidableEq, Repr

/-- The scene graph (`Containers::SceneGraph`): nodes in storage order.  The
name storage and the content storage are the two projections of this list, so
both are indexed by the same node index. -/
structure SceneGraph where
  nodes : List Node
  deriving DecidableEq, Repr

/-- View on the names (`SceneGraph::GetNameStorage`). -/
def SceneGraph.GetNameStorage (graph : SceneGraph) : List String :=
  graph.nodes.map Node.name

/-- View on the content (`SceneGraph::GetContentStorage`). -/
def SceneGraph.GetContentStorage (graph : SceneGraph) : List (Option IGraphObject) :=
  graph.nodes.map Node.content

/-- Name stored at a node index (`SceneGraph::GetNodeName(index).GetName()`);
an index past the end has no name. -/
def SceneGraph.GetNodeName (graph : SceneGraph) (index : Nat) : String :=
  (graph.GetNameStorage.get? index).getD ""

/-- The filter `Containers::DerivedTypeFilter<DataTypes::IMeshVertexColorData>`:
true on non-null content whose class derives from `IMeshVertexColorData`. -/
def DerivedTypeFilter_IMeshVertexColorData : Option IGraphObject → Bool
  | some IGraphObject.IMeshVertexColorData => true
  | _ => false

/-- The algorithm `AZStd::find_if(begin, end, pred)`: position of the first
element satisfying `pred`; the length of the range (the `end` iterator) when
there is none. -/
def find_if {α : Type} (pred : α → Bool) : List α → Nat
  | [] => 0
  | x :: xs => if pred x then 0 else find_if pred xs + 1

/-- Embedding of `MeshAdvancedRule::GetFirstVertexColorStream` (lines 177-191). -/
def GetFirstVertexColorStream (graph : SceneGraph) : String :=
  let graphContent := graph.GetContentStorage
  let vertexColorData := find_if DerivedTypeFilter_IMeshVertexColorData graphContent
  if vertexColorData ≠ graphContent.length then
    graph.GetNodeName vertexColorData
  else
    ""

/-- A node carries vertex-colour data. -/
def Node.hasVertexColor (n : Node) : Bool :=
  DerivedTypeFilter_IMeshVertexColorData n.content

/-- Concrete class of an object reached through an `IMeshAdvancedRule`
pointer.  `azrtti_cast<SceneData::SkinMeshAdvancedRule*>` succeeds on the first,
`azrtti_cast<SceneData::StaticMeshAdvancedRule*>` on the second, neither on
another implementation of the interface. -/
inductive MeshAdvancedRuleClass where
  | SkinMeshAdvancedRule
  | StaticMeshAdvancedRule
  | Other
  deriving DecidableEq, Repr

/-- An object implementing `DataTypes::IMeshAdvancedRule`: its concrete class
and the attribute read by `GetVertexColorStreamName`. -/
structure IMeshAdvancedRule where
  cls : MeshAdvancedRuleClass
  vertexColorStreamName : String
  deriving DecidableEq, Repr

/-- A rule held by a rule container (`DataTypes::IRule`): either an
`IMeshAdvancedRule` or a rule of an unrelated class, identified by a tag. -/
inductive IRule where
  | meshAdvanced (rule : IMeshAdvancedRule)
  | other (tag : Nat)
  deriving DecidableEq, Repr

/-- The cast `azrtti_cast<DataTypes::IMeshAdvancedRule*>(rules.GetRule(index).get())`:
null when the rule does not implement the interface. -/
def azrtti_cast_IMeshAdvancedRule : Option IRule → Option IMeshAdvancedRule
  | some (IRule.meshAdvanced rule) => some rule
  | _ => none

/-- A manifest object (`DataTypes::IManifestObject`): a scene node group
(`ISceneNodeGroup`, which is an `ISkinGroup` when the flag is set) with its
name and rule container, a rule, or an object of an unrelated class. -/
inductive IManifestObject where
  | sceneNodeGroup (isSkinGroup : Bool) (name : String) (rules : List IRule)
  | rule (r : IRule)
  | other (tag : Nat)
  deriving DecidableEq, Repr

/-- The scene (`Containers::Scene`): its graph and the value storage of its
manifest. -/
structure Scene where
  graph : SceneGraph
  manifest : List IManifestObject
  deriving DecidableEq, Repr

/-- What a call does besides returning: the warning printed with
`AZ_TracePrintf(Utilities::WarningWindow, ...)` (old and new name) and each call
of the setter `SetVertexColorStreamName`. -/
inductive Event where
  | warning (oldName newName : String)
  | SetVertexColorStreamName (value : String)
  deriving DecidableEq, Repr

/-- An event is a call of the setter. -/
def Event.isWrite : Event → Bool
  | Event.SetVertexColorStreamName _ => true
  | Event.warning _ _ => false

/-- An event is a warning. -/
def Event.isWarning : Event → Bool
  | Event.warning _ _ => true
  | Event.SetVertexColorStreamName _ => false

/-- The loop of `UpdateMeshAdvancedRule` over the name storage (lines 148-159):
it stops at the first iteration that finds the flag set, and sets the flag when
the stored name equals the node name. -/
def nameStorageLoop (vertexColorStreamName : String) : List String → Bool → Bool
  | [], foundColorStream => foundColorStream
  | nodeName :: rest, foundColorStream =>
    if foundColorStream then
      foundColorStream
    else if !foundColorStream && vertexColorStreamName == nodeName then
      nameStorageLoop vertexColorStreamName rest true
    else
      nameStorageLoop vertexColorStreamName rest foundColorStream

/-- Embedding of `MeshAdvancedRule::UpdateMeshAdvancedRule` (lines 131-175).
The constant `DataTypes::s_advancedDisabledString` is declared outside the two
source files and is taken as a parameter.  The result is the rule after the
call and the events of the call, in order. -/
def UpdateMeshAdvancedRule (s_advancedDisabledString : String) (scene : Scene)
    (rule : Option IMeshAdvancedRule) : Option IMeshAdvancedRule × List Event :=
  match rule with
  | none => (none, [])
  | some r =>
    let skinRule : Bool := r.cls == MeshAdvancedRuleClass.SkinMeshAdvancedRule
    let meshRule : Bool := r.cls == MeshAdvancedRuleClass.StaticMeshAdvancedRule
    if !(skinRule || meshRule) then
      (some r, [])
    else
      let vertexColorStreamName := r.vertexColorStreamName
      let foundColorStream := nameStorageLoop vertexColorStreamName
        scene.graph.GetNameStorage (vertexColorStreamName == s_advancedDisabledString)
      if !foundColorStream then
        let newColorStreamName := GetFirstVertexColorStream scene.graph
        let warning := Event.warning vertexColorStreamName newColorStreamName
        let value := if newColorStreamName = "" then s_advancedDisabledString
          else newColorStreamName
        if skinRule then
          (some { r with vertexColorStreamName := value },
            [warning, Event.SetVertexColorStreamName value])
        else if meshRule then
          (some { r with vertexColorStreamName := value },
            [warning, Event.SetVertexColorStreamName value])
        else
          (some r, [warning])
      else
        (some r, [])

/-- The inner loop of `UpdateMeshAdvancedRules` (lines 120-127):
`for (index = 0; index < ruleCount; ++index)`, with `remaining` the number of
iterations still to run.  A rule mutated through its pointer is written back
at its index. -/
def ruleLoop (s_advancedDisabledString : String) (scene : Scene) :
    Nat → Nat → List IRule → List Event → List IRule × List Event
  | 0, _, rules, log => (rules, log)
  | remaining + 1, index, rules, log =>
    match azrtti_cast_IMeshAdvancedRule (rules.get? index) with
    | some rule =>
      match UpdateMeshAdvancedRule s_advancedDisabledString scene (some rule) with
      | (some updated, events) =>
        ruleLoop s_advancedDisabledString scene remaining (index + 1)
          (rules.set index (IRule.meshAdvanced updated)) (log ++ events)
      | (none, events) =>
        ruleLoop s_advancedDisabledString scene remaining (index + 1) rules (log ++ events)
    | none => ruleLoop s_advancedDisabledString scene remaining (index + 1) rules log

/-- The outer loop of `UpdateMeshAdvancedRules` (lines 113-128) over the view
`MakeDerivedFilterView<DataTypes::ISceneNodeGroup>(valueStorage)`: entries that
are not scene node groups are skipped by the view. -/
def groupLoop (s_advancedDisabledString : String) (scene : Scene) :
    List IManifestObject → List Event → List IManifestObject × List Event
  | [], log => ([], log)
  | IManifestObject.sceneNodeGroup isSkinGroup name rules :: rest, log =>
    let ruleCount := rules.length
    let (rules1, log1) := ruleLoop s_advancedDisabledString scene ruleCount 0 rules log
    let (rest1, log2) := groupLoop s_advancedDisabledString scene rest log1
    (IManifestObject.sceneNodeGroup isSkinGroup name rules1 :: rest1, log2)
  | object :: rest, log =>
    let (rest1, log1) := groupLoop s_advancedDisabledString scene rest log
    (object :: rest1, log1)

/-- Embedding of `MeshAdvancedRule::UpdateMeshAdvancedRules` (lines 110-129):
the scene after the call and the events of the call.  Only the graph of the
scene is read by the calls of `UpdateMeshAdvancedRule`, and the graph is not
written. -/
def UpdateMeshAdvancedRules (s_advancedDisabledString : String) (scene : Scene) :
    Scene × List Event :=
  let (manifest, log) := groupLoop s_advancedDisabledString scene scene.manifest []
  ({ scene with manifest := manifest }, log)

/-- The intent passed to `UpdateManifest` (`Events::AssetImportRequest::ManifestAction`,
declared outside the two source files). -/
inductive ManifestAction where
  | Update
  | ConstructDefault
  deriving DecidableEq, Repr

/-- Result reported to the host (`Events::ProcessingResult`). -/
inductive ProcessingResult where
  | Ignored
  | Success
  | Failure
  deriving DecidableEq, Repr

/-- Embedding of `MeshAdvancedRule::UpdateManifest` (lines 96-108): the result,
the scene after the call and the events of the call. -/
def UpdateManifest (s_advancedDisabledString : String) (scene : Scene)
    (action : ManifestAction) : ProcessingResult × Scene × List Event :=
  if action = ManifestAction.Update then
    let (scene1, log) := UpdateMeshAdvancedRules s_advancedDisabledString scene
    (ProcessingResult.Success, scene1, log)
  else
    (ProcessingResult.Ignored, scene, [])

/-- Embedding of `MeshAdvancedRule::InitializeObject` (lines 57-94): the target
after the call.  `RuleContainer::AddRule` appends the new rule. -/
def InitializeObject (s_advancedDisabledString : String) (scene : Scene)
    (target : IManifestObject) : IManifestObject :=
  let firstVertexColorStream := GetFirstVertexColorStream scene.graph
  let value := if firstVertexColorStream = "" then s_advancedDisabledString
    else firstVertexColorStream
  match target with
  | IManifestObject.sceneNodeGroup isSkinGroup name rules =>
    if firstVertexColorStream ≠ "" then
      if isSkinGroup then
        IManifestObject.sceneNodeGroup isSkinGroup name
          (rules ++ [IRule.meshAdvanced
            { cls := MeshAdvancedRuleClass.SkinMeshAdvancedRule, vertexColorStreamName := value }])
      else
        IManifestObject.sceneNodeGroup isSkinGroup name
          (rules ++ [IRule.meshAdvanced
            { cls := MeshAdvancedRuleClass.StaticMeshAdvancedRule, vertexColorStreamName := value }])
    else
      target
  | IManifestObject.rule (IRule.meshAdvanced r) =>
    if r.cls = MeshAdvancedRuleClass.StaticMeshAdvancedRule then
      IManifestObject.rule (IRule.meshAdvanced { r with vertexColorStreamName := value })
    else if r.cls = MeshAdvancedRuleClass.SkinMeshAdvancedRule then
      IManifestObject.rule (IRule.meshAdvanced { r with vertexColorStreamName := value })
    else
      target
  | _ => target

/-! ### Example scenes -/

/-- The graph of the scenario of the specification: nodes `root`,
`mesh1:colors` (vertex-colour data) and `mesh1`. -/
def exampleGraph : SceneGraph :=
  { nodes := [ { name := "root", content := none },
               { name := "mesh1:colors", content := some IGraphObject.IMeshVertexColorData },
               { name := "mesh1", content := some IGraphObject.IMeshData } ] }

/-- A graph without vertex-colour data. -/
def exampleGraphNoColor : SceneGraph :=
  { nodes := [ { name := "root", content := none },
               { name := "mesh1", content := some IGraphObject.IMeshData },
               { name := "mesh1:uv", content := some IGraphObject.IMeshVertexUVData } ] }

/-- A scene on `exampleGraph` with a mesh group holding a stale static rule and
an unrelated rule, an unrelated manifest entry, and a skin group. -/
def exampleScene : Scene :=
  { graph := exampleGraph
    manifest :=
      [ IManifestObject.sceneNodeGroup false "mesh1"
          [ IRule.other 7,
            IRule.meshAdvanced { cls := MeshAdvancedRuleClass.StaticMeshAdvancedRule,
                                 vertexColorStreamName := "old:colors" } ],
        IManifestObject.other 3,
        IManifestObject.sceneNodeGroup true "skin1"
          [ IRule.meshAdvanced { cls := MeshAdvancedRuleClass.SkinMeshAdvancedRule,
                                 vertexColorStreamName := "Disabled" } ] ] }

/-- A scene on `exampleGraphNoColor` with an empty manifest. -/
def exampleSceneNoColor : Scene :=
  { graph := exampleGraphNoColor, manifest := [] }

/-! ### Specification-side definitions -/

/-- The validator of the specification (section 4.2) on one rule: the rule
after `UpdateMeshAdvancedRule`. -/
def validate (s_advancedDisabledString : String) (scene : Scene)
    (rule : IMeshAdvancedRule) : IMeshAdvancedRule :=
  ((UpdateMeshAdvancedRule s_advancedDisabledString scene (some rule)).1).getD rule

/-- The update pass of the specification (section 4.3) on one rule of a
group: `validate` on a rule with the vertex-colour capability, any other rule
kept as it is. -/
def validateRule (s_advancedDisabledString : String) (scene : Scene) : IRule → IRule
  | IRule.meshAdvanced r => IRule.meshAdvanced (validate s_advancedDisabledString scene r)
  | other => other

/-- The manifest of the specification (section 4.3) after an update pass:
`validateRule` on every rule of every scene node group, every other manifest
entry kept as it is. -/
def validatedManifest (s_advancedDisabledString : String) (scene : Scene) :
    List IManifestObject :=
  scene.manifest.map fun object =>
    match object with
    | IManifestObject.sceneNodeGroup isSkinGroup name rules =>
      IManifestObject.sceneNodeGroup isSkinGroup name
        (rules.map (validateRule s_advancedDisabledString scene))
    | other => other

end MeshAdvancedRule

namespace AssetImporterDragAndDropHandler

/-! ## Data model of the drag-and-drop handler

The handler reads the file system through `QFileInfo` and `QDirIterator`.  An
event carries, for each of its URLs, what these queries answer. -/

/-- What `QFileInfo` answers on one path: `isFile()`, `suffix()` and
`completeSuffix()`. -/
structure QFileInfo where
  isFile : Bool
  suffix : String
  completeSuffix : String
  deriving DecidableEq, Repr

/-- A local path (`QUrl::toLocalFile()`) with the answers of the file system
on it: its `QFileInfo`, the entries of
`QDirIterator(path, QDir::NoDotAndDotDot | QDir::Files, QDirIterator::Subdirectories)`,
and whether its absolute path starts with the absolute path of the game root,
case-insensitively (line 111). -/
structure LocalPath where
  path : String
  fileInfo : QFileInfo
  files : List QFileInfo
  underGameRoot : Bool
  deriving DecidableEq, Repr

/-- One URL of the mime data (`QUrl`). -/
structure QUrl where
  isLocalFile : Bool
  toLocalFile : LocalPath
  deriving DecidableEq, Repr

/-- The mime data of an event (`QMimeData`): `hasUrls()`,
`hasFormat(AssetBrowserEntry::GetMimeType())` and `urls()`. -/
structure QMimeData where
  hasUrls : Bool
  hasAssetBrowserFormat : Bool
  urls : List QUrl
  deriving DecidableEq, Repr

/-- A drag-enter or drop event (`QDragEnterEvent` derives from `QDropEvent`):
its accepted flag and its mime data. -/
structure QDropEvent where
  isAccepted : Bool
  mimeData : QMimeData
  deriving DecidableEq, Repr

/-- The two flags of the handler: the member `m_isAssetImporterRunning` and the
static member `m_dragAccepted`. -/
structure Handler where
  m_isAssetImporterRunning : Bool
  m_dragAccepted : Bool
  deriving DecidableEq, Repr

/-- Embedding of `isCrateFile` (lines 204-207): the suffix compared with
`crate` without regard to case. -/
def isCrateFile (fileInfo : QFileInfo) : Bool :=
  fileInfo.suffix.data.map Char.toLower == "crate".data

/-- The `while (it.hasNext())` loop of `ContainCrateFiles` (lines 189-198). -/
def crateIteratorLoop : List QFileInfo → Bool
  | [] => false
  | info :: rest => if isCrateFile info then true else crateIteratorLoop rest

/-- Embedding of `ContainCrateFiles` (lines 177-202). -/
def ContainCrateFiles (path : LocalPath) : Bool :=
  if path.fileInfo.isFile then
    isCrateFile path.fileInfo
  else
    crateIteratorLoop path.files

/-- The first loop of `ProcessDragEnter` (lines 83-96); the result is true when
the function returns at line 93. -/
def crateUrlLoop : List QUrl → Bool
  | [] => false
  | currentUrl :: rest =>
    if currentUrl.isLocalFile then
      if ContainCrateFiles currentUrl.toLocalFile then true else crateUrlLoop rest
    else
      crateUrlLoop rest

/-- The second loop of `ProcessDragEnter` (lines 98-130), from a value of
`m_dragAccepted`: the value of `m_dragAccepted` when the loop is left, and
whether it is left by the `return` of line 114. -/
def acceptUrlLoop : List QUrl → Bool → Bool × Bool
  | [], m_dragAccepted => (m_dragAccepted, false)
  | url :: rest, m_dragAccepted =>
    let path := url.toLocalFile
    if path.underGameRoot then
      (false, true)
    else if !path.files.isEmpty || !(path.fileInfo.completeSuffix == "") then
      acceptUrlLoop rest true
    else
      acceptUrlLoop rest m_dragAccepted

/-- Embedding of `ProcessDragEnter` (lines 65-139): the handler and the event
after the call; `acceptProposedAction` sets the accepted flag of the event. -/
def ProcessDragEnter (self : Handler) (event : QDropEvent) : Handler × QDropEvent :=
  let mimeData := event.mimeData
  if !event.isAccepted && mimeData.hasUrls then
    if mimeData.hasAssetBrowserFormat then
      ({ self with m_dragAccepted := false }, event)
    else
      let urlList := mimeData.urls
      if crateUrlLoop urlList then
        (self, event)
      else
        match acceptUrlLoop urlList self.m_dragAccepted with
        | (m_dragAccepted, true) => ({ self with m_dragAccepted := m_dragAccepted }, event)
        | (m_dragAccepted, false) =>
          if m_dragAccepted then
            ({ self with m_dragAccepted := m_dragAccepted }, { event with isAccepted := true })
          else
            ({ self with m_dragAccepted := m_dragAccepted }, event)
  else
    (self, event)

/-- Embedding of `DragEnter` (lines 39-45). -/
def DragEnter (self : Handler) (event : QDropEvent) : Handler × QDropEvent :=
  if !self.m_isAssetImporterRunning then
    ProcessDragEnter self event
  else
    (self, event)

/-- The loop of `GetFileList` (lines 148-161), appending to `fileList`. -/
def fileListLoop : List QUrl → List String → List String
  | [], fileList => fileList
  | currentUrl :: rest, fileList =>
    if currentUrl.isLocalFile then
      if !ContainCrateFiles currentUrl.toLocalFile then
        fileListLoop rest (fileList ++ [currentUrl.toLocalFile.path])
      else
        fileListLoop rest fileList
    else
      fileListLoop rest fileList

/-- Embedding of `GetFileList` (lines 141-164). -/
def GetFileList (event : QDropEvent) : List String :=
  fileListLoop event.mimeData.urls []

/-- Embedding of `Drop` (lines 47-63): the handler after the call and the
argument of the signal `OpenAssetImporterManager` when the signal is
emitted. -/
def Drop (self : Handler) (event : QDropEvent) : Handler × Option (List String) :=
  if !self.m_dragAccepted then
    (self, none)
  else
    let fileList := GetFileList event
    if !fileList.isEmpty then
      ({ self with m_dragAccepted := false }, some fileList)
    else
      ({ self with m_dragAccepted := false }, none)

/-- Embedding of `OnStartAssetImporter` (lines 166-169). -/
def OnStartAssetImporter (self : Handler) : Handler :=
  { self with m_isAssetImporterRunning := true }

/-- Embedding of `OnStopAssetImporter` (lines 171-174). -/
def OnStopAssetImporter (self : Handler) : Handler :=
  { self with m_isAssetImporterRunning := false }

/-! ### The handler as a state machine -/

/-- The calls the handler receives. -/
inductive Step where
  | DragEnter (event : QDropEvent)
  | Drop (event : QDropEvent)
  | OnStartAssetImporter
  | OnStopAssetImporter
  deriving DecidableEq, Repr

/-- One emission of `OpenAssetImporterManager`: the value of
`m_isAssetImporterRunning` when the signal is emitted and the file list. -/
structure Emission where
  isAssetImporterRunning : Bool
  fileList : List String
  deriving DecidableEq, Repr

/-- One call: the handler after it and the emissions of the call. -/
def step (self : Handler) : Step → Handler × List Emission
  | Step.DragEnter event => ((DragEnter self event).1, [])
  | Step.Drop event =>
    match Drop self event with
    | (next, some fileList) =>
      (next, [{ isAssetImporterRunning := self.m_isAssetImporterRunning, fileList := fileList }])
    | (next, none) => (next, [])
  | Step.OnStartAssetImporter => (OnStartAssetImporter self, [])
  | Step.OnStopAssetImporter => (OnStopAssetImporter self, [])

/-- A sequence of calls: the handler after them and their emissions, in
order. -/
def run (self : Handler) : List Step → Handler × List Emission
  | [] => (self, [])
  | s :: rest =>
    let (next, emitted) := step self s
    let (last, emittedLater) := run next rest
    (last, emitted ++ emittedLater)

/-- The handler after construction: `m_dragAccepted` is false (line 21); the
initial value of `m_isAssetImporterRunning` is given in the class declaration,
outside the source file, and is a parameter. -/
def initial (isAssetImporterRunning : Bool) : Handler :=
  { m_isAssetImporterRunning := isAssetImporterRunning, m_dragAccepted := false }

/-! ### Example events -/

/-- A drag of one model file outside the game root. -/
def fileEvent : QDropEvent :=
  { isAccepted := false
    mimeData :=
      { hasUrls := true
        hasAssetBrowserFormat := false
        urls := [ { isLocalFile := true
                    toLocalFile :=
                      { path := "C:/import/model.fbx"
                        fileInfo := { isFile := true, suffix := "fbx", completeSuffix := "fbx" }
                        files := []
                        underGameRoot := false } } ] } }

/-- A drag of one empty folder outside the game root, not from the Asset
Browser, not yet accepted. -/
def emptyFolderEvent : QDropEvent :=
  { isAccepted := false
    mimeData :=
      { hasUrls := true
        hasAssetBrowserFormat := false
        urls := [ { isLocalFile := true
                    toLocalFile :=
                      { path := "C:/import/empty"
                        fileInfo := { isFile := false, suffix := "", completeSuffix := "" }
                        files := []
                        underGameRoot := false } } ] } }

/-- An URL is an empty folder directory outside the game root: no file beneath
it and no file extension. -/
def QUrl.isEmptyFolder (url : QUrl) : Bool :=
  url.toLocalFile.files.isEmpty && url.toLocalFile.fileInfo.completeSuffix == ""
    && !url.toLocalFile.fileInfo.isFile && !url.toLocalFile.underGameRoot

end AssetImporterDragAndDropHandler

namespace MeshAdvancedRule

/-! ## Lemmas on the resolver -/

theorem find_if_le_length {α : Type} (pred : α → Bool) (xs : List α) :
    find_if pred xs ≤ xs.length := by
  induction xs with
  | nil => simp [find_if]
  | cons x xs ih =>
    unfold find_if
    split
    · exact Nat.zero_le _
    · simpa using ih

theorem find_if_eq_length_of_none {α : Type} (pred : α → Bool) (xs : List α)
    (h : ∀ x ∈ xs, pred x = false) : find_if pred xs = xs.length := by
  induction xs with
  | nil => simp [find_if]
  | cons x xs ih =>
    have hx : pred x = false := h x (List.mem_cons_self _ _)
    have hxs : ∀ y ∈ xs, pred y = false := fun y hy => h y (List.mem_cons_of_mem _ hy)
    simp [find_if, hx, ih hxs]

theorem find_if_append_first {α : Type} (pred : α → Bool) (pre : List α) (x : α)
    (post : List α) (hpre : ∀ y ∈ pre, pred y = false) (hx : pred x = true) :
    find_if pred (pre ++ x :: post) = pre.length := by
  induction pre with
  | nil => simp [find_if, hx]
  | cons p pre ih =>
    have hp : pred p = false := hpre p (List.mem_cons_self _ _)
    have hrest : ∀ y ∈ pre, pred y = false := fun y hy => hpre y (List.mem_cons_of_mem _ hy)
    simp [find_if, hp, ih hrest]

theorem get?_append_length {α : Type} (pre : List α) (x : α) (post : List α) :
    (pre ++ x :: post).get? pre.length = some x := by
  induction pre with
  | nil => rfl
  | cons p pre ih => simpa using ih

theorem GetFirstVertexColorStream_none (graph : SceneGraph)
    (h : ∀ n ∈ graph.nodes, n.hasVertexColor = false) :
    GetFirstVertexColorStream graph = "" := by
  have hc : ∀ c ∈ graph.GetContentStorage, DerivedTypeFilter_IMeshVertexColorData c = false := by
    intro c hc
    simp only [SceneGraph.GetContentStorage, List.mem_map] at hc
    obtain ⟨n, hn, rfl⟩ := hc
    exact h n hn
  simp [GetFirstVertexColorStream, find_if_eq_length_of_none _ _ hc]

theorem GetFirstVertexColorStream_first (graph : SceneGraph) (pre : List Node) (n : Node)
    (post : List Node) (hg : graph.nodes = pre ++ n :: post)
    (hpre : ∀ m ∈ pre, m.hasVertexColor = false) (hn : n.hasVertexColor = true) :
    GetFirstVertexColorStream graph = n.name := by
  have hidx : find_if DerivedTypeFilter_IMeshVertexColorData graph.GetContentStorage
      = pre.length := by
    have hmap : graph.GetContentStorage
        = pre.map Node.content ++ n.content :: post.map Node.content := by
      simp [SceneGraph.GetContentStorage, hg]
    rw [hmap, find_if_append_first]
    · simp
    · intro c hc
      simp only [List.mem_map] at hc
      obtain ⟨m, hm, rfl⟩ := hc
      exact hpre m hm
    · exact hn
  have hlen : graph.GetContentStorage.length = pre.length + 1 + post.length := by
    simp [SceneGraph.GetContentStorage, hg]; omega
  have hname : graph.GetNodeName pre.length = n.name := by
    have hnames : graph.GetNameStorage
        = pre.map Node.name ++ n.name :: post.map Node.name := by
      simp [SceneGraph.GetNameStorage, hg]
    have hget := get?_append_length (pre.map Node.name) n.name (post.map Node.name)
    rw [List.length_map] at hget
    rw [SceneGraph.GetNodeName, hnames, hget, Option.getD_some]
  unfold GetFirstVertexColorStream
  simp only [hidx, hlen, hname]
  rw [if_pos (by omega)]

/-- The resolver returns a name that is stored in the graph whenever it returns
a non-empty string. -/
theorem GetFirstVertexColorStream_mem (graph : SceneGraph)
    (h : GetFirstVertexColorStream graph ≠ "") :
    GetFirstVertexColorStream graph ∈ graph.GetNameStorage := by
  unfold GetFirstVertexColorStream at h ⊢
  simp only at h ⊢
  split
  · rename_i hne
    have hlt : find_if DerivedTypeFilter_IMeshVertexColorData graph.GetContentStorage
        < graph.GetNameStorage.length := by
      have := find_if_le_length DerivedTypeFilter_IMeshVertexColorData graph.GetContentStorage
      simp only [SceneGraph.GetContentStorage, SceneGraph.GetNameStorage, List.length_map]
        at this hne ⊢
      omega
    unfold SceneGraph.GetNodeName
    rw [List.get?_eq_get hlt]
    simp only [Option.getD_some]
    exact List.get_mem _ _ _
  · rename_i hne
    rw [if_neg hne] at h
    exact absurd rfl h

end MeshAdvancedRule

namespace MeshAdvancedRule

/-! ## Lemmas on the validator -/

theorem nameStorageLoop_eq (v : String) (names : List String) (found : Bool) :
    nameStorageLoop v names found = (found || decide (v ∈ names)) := by
  induction names generalizing found with
  | nil => simp [nameStorageLoop]
  | cons nodeName rest ih =>
    cases found with
    | true => simp [nameStorageLoop]
    | false =>
      by_cases hv : v = nodeName
      · subst hv
        simp [nameStorageLoop, ih]
      · simp [nameStorageLoop, hv, ih]

theorem UpdateMeshAdvancedRule_found (d : String) (scene : Scene) (r : IMeshAdvancedRule)
    (h : r.vertexColorStreamName = d ∨ r.vertexColorStreamName ∈ scene.graph.GetNameStorage) :
    UpdateMeshAdvancedRule d scene (some r) = (some r, []) := by
  have hfound : nameStorageLoop r.vertexColorStreamName scene.graph.GetNameStorage
      (r.vertexColorStreamName == d) = true := by
    rw [nameStorageLoop_eq]
    rcases h with h | h
    · simp [h]
    · simp [h]
  unfold UpdateMeshAdvancedRule
  simp only [hfound]
  split <;> rfl

theorem UpdateMeshAdvancedRule_missing (d : String) (scene : Scene) (r : IMeshAdvancedRule)
    (hcls : r.cls = MeshAdvancedRuleClass.SkinMeshAdvancedRule
      ∨ r.cls = MeshAdvancedRuleClass.StaticMeshAdvancedRule)
    (hne : r.vertexColorStreamName ≠ d)
    (habsent : r.vertexColorStreamName ∉ scene.graph.GetNameStorage) :
    UpdateMeshAdvancedRule d scene (some r)
      = (some { r with vertexColorStreamName :=
            if GetFirstVertexColorStream scene.graph = "" then d
            else GetFirstVertexColorStream scene.graph },
          [Event.warning r.vertexColorStreamName (GetFirstVertexColorStream scene.graph),
           Event.SetVertexColorStreamName
            (if GetFirstVertexColorStream scene.graph = "" then d
             else GetFirstVertexColorStream scene.graph)]) := by
  have hfound : nameStorageLoop r.vertexColorStreamName scene.graph.GetNameStorage
      (r.vertexColorStreamName == d) = false := by
    rw [nameStorageLoop_eq]
    simp [hne, habsent]
  unfold UpdateMeshAdvancedRule
  rcases hcls with hc | hc <;> simp [hfound, hc]

theorem UpdateMeshAdvancedRule_other (d : String) (scene : Scene) (r : IMeshAdvancedRule)
    (hcls : r.cls = MeshAdvancedRuleClass.Other) :
    UpdateMeshAdvancedRule d scene (some r) = (some r, []) := by
  unfold UpdateMeshAdvancedRule
  simp [hcls]

/-- On a non-null rule the call returns a non-null rule, the one `validate`
names. -/
theorem UpdateMeshAdvancedRule_some (d : String) (scene : Scene) (r : IMeshAdvancedRule) :
    (UpdateMeshAdvancedRule d scene (some r)).1 = some (validate d scene r) := by
  have hsome : ∃ u, (UpdateMeshAdvancedRule d scene (some r)).1 = some u := by
    unfold UpdateMeshAdvancedRule
    simp only
    split
    · exact ⟨_, rfl⟩
    · split
      · split
        · exact ⟨_, rfl⟩
        · split
          · exact ⟨_, rfl⟩
          · exact ⟨_, rfl⟩
      · exact ⟨_, rfl⟩
  obtain ⟨u, hu⟩ := hsome
  simp [validate, hu]

/-! ## Lemmas on the loops of the update pass -/

theorem set_append_length {α : Type} (pre : List α) (x y : α) (post : List α) :
    (pre ++ x :: post).set pre.length y = pre ++ y :: post := by
  induction pre with
  | nil => rfl
  | cons p pre ih => simp [ih]

theorem ruleLoop_fst (d : String) (scene : Scene) (post pre : List IRule) (log : List Event) :
    (ruleLoop d scene post.length pre.length (pre ++ post) log).1
      = pre ++ post.map (validateRule d scene) := by
  induction post generalizing pre log with
  | nil => simp [ruleLoop]
  | cons x post ih =>
    have hget : (pre ++ x :: post).get? pre.length = some x := get?_append_length pre x post
    have hlen : (pre ++ [x]).length = pre.length + 1 := by simp
    cases x with
    | other tag =>
      have step : ruleLoop d scene (post.length + 1) pre.length (pre ++ IRule.other tag :: post) log
          = ruleLoop d scene post.length (pre.length + 1) (pre ++ IRule.other tag :: post) log := by
        simp only [ruleLoop, hget, azrtti_cast_IMeshAdvancedRule]
      rw [List.length_cons, step]
      have := ih (pre ++ [IRule.other tag]) log
      rw [hlen] at this
      simpa [validateRule] using this
    | meshAdvanced r =>
      have hsome := UpdateMeshAdvancedRule_some d scene r
      obtain ⟨events, hev⟩ : ∃ events, UpdateMeshAdvancedRule d scene (some r)
          = (some (validate d scene r), events) :=
        ⟨(UpdateMeshAdvancedRule d scene (some r)).2, by rw [← hsome]⟩
      have step : ruleLoop d scene (post.length + 1) pre.length
            (pre ++ IRule.meshAdvanced r :: post) log
          = ruleLoop d scene post.length (pre.length + 1)
              (pre ++ IRule.meshAdvanced (validate d scene r) :: post) (log ++ events) := by
        simp only [ruleLoop, hget, azrtti_cast_IMeshAdvancedRule, hev, set_append_length]
      rw [List.length_cons, step]
      have := ih (pre ++ [IRule.meshAdvanced (validate d scene r)]) (log ++ events)
      rw [List.length_append, List.length_singleton] at this
      simpa [validateRule] using this

theorem groupLoop_fst (d : String) (scene : Scene) (objects : List IManifestObject)
    (log : List Event) :
    (groupLoop d scene objects log).1
      = objects.map fun object =>
          match object with
          | IManifestObject.sceneNodeGroup isSkinGroup name rules =>
            IManifestObject.sceneNodeGroup isSkinGroup name (rules.map (validateRule d scene))
          | other => other := by
  induction objects generalizing log with
  | nil => simp [groupLoop]
  | cons object rest ih =>
    cases object with
    | sceneNodeGroup isSkinGroup name rules =>
      have h := ruleLoop_fst d scene rules [] log
      simp only [List.length_nil, List.nil_append] at h
      simp only [groupLoop, List.map_cons, ih, h]
    | rule r => simp only [groupLoop, List.map_cons, ih]
    | other tag => simp only [groupLoop, List.map_cons, ih]

/-! ## The claims on the vertex-colour behaviour -/

/-- C1: for every scene graph, `GetFirstVertexColorStream` returns the empty
string when no node carries vertex-colour data, and the name of the first node
in storage order that carries vertex-colour data when there is one. -/
theorem C1_GetFirstVertexColorStream_first_or_empty (graph : SceneGraph) :
    ((∀ n ∈ graph.nodes, n.hasVertexColor = false) → GetFirstVertexColorStream graph = "") ∧
    (∀ (pre : List Node) (n : Node) (post : List Node), graph.nodes = pre ++ n :: post →
      (∀ m ∈ pre, m.hasVertexColor = false) → n.hasVertexColor = true →
      GetFirstVertexColorStream graph = n.name) :=
  ⟨GetFirstVertexColorStream_none graph,
    fun pre n post hg hpre hn => GetFirstVertexColorStream_first graph pre n post hg hpre hn⟩

/-- C1 at the scenario of the specification and at a graph without vertex
colours. -/
theorem C1_GetFirstVertexColorStream_witness :
    GetFirstVertexColorStream exampleGraphNoColor = "" ∧
    GetFirstVertexColorStream exampleGraph = "mesh1:colors" :=
  ⟨(C1_GetFirstVertexColorStream_first_or_empty exampleGraphNoColor).1 (by decide),
    (C1_GetFirstVertexColorStream_first_or_empty exampleGraph).2
      [{ name := "root", content := none }]
      { name := "mesh1:colors", content := some IGraphObject.IMeshVertexColorData }
      [{ name := "mesh1", content := some IGraphObject.IMeshData }]
      rfl (by decide) (by decide)⟩

/-- C2: for a static-mesh or skin-mesh rule whose stored name is not the
sentinel and is the name of no node, `UpdateMeshAdvancedRule` leaves the rule
with the name `GetFirstVertexColorStream` returns, or with the sentinel when
that is empty; it prints one warning with the old and the new name and calls
the setter exactly once. -/
theorem C2_UpdateMeshAdvancedRule_repairs (s_advancedDisabledString : String) (scene : Scene)
    (r : IMeshAdvancedRule)
    (hcls : r.cls = MeshAdvancedRuleClass.SkinMeshAdvancedRule
      ∨ r.cls = MeshAdvancedRuleClass.StaticMeshAdvancedRule)
    (hne : r.vertexColorStreamName ≠ s_advancedDisabledString)
    (habsent : r.vertexColorStreamName ∉ scene.graph.GetNameStorage) :
    (UpdateMeshAdvancedRule s_advancedDisabledString scene (some r)).1
      = some { r with vertexColorStreamName :=
          if GetFirstVertexColorStream scene.graph = "" then s_advancedDisabledString
          else GetFirstVertexColorStream scene.graph } ∧
    ((UpdateMeshAdvancedRule s_advancedDisabledString scene (some r)).2.filter
      Event.isWrite).length = 1 ∧
    (UpdateMeshAdvancedRule s_advancedDisabledString scene (some r)).2
      = [Event.warning r.vertexColorStreamName (GetFirstVertexColorStream scene.graph),
         Event.SetVertexColorStreamName
          (if GetFirstVertexColorStream scene.graph = "" then s_advancedDisabledString
           else GetFirstVertexColorStream scene.graph)] := by
  rw [UpdateMeshAdvancedRule_missing s_advancedDisabledString scene r hcls hne habsent]
  simp [Event.isWrite]

/-- C2 at the scenario of the specification: the stale name `old:colors` is
replaced by `mesh1:colors`. -/
theorem C2_UpdateMeshAdvancedRule_repairs_witness :
    (UpdateMeshAdvancedRule "Disabled" exampleScene
        (some { cls := MeshAdvancedRuleClass.StaticMeshAdvancedRule,
                vertexColorStreamName := "old:colors" })).1
      = some { cls := MeshAdvancedRuleClass.StaticMeshAdvancedRule,
               vertexColorStreamName := "mesh1:colors" } ∧
    ((UpdateMeshAdvancedRule "Disabled" exampleScene
        (some { cls := MeshAdvancedRuleClass.StaticMeshAdvancedRule,
                vertexColorStreamName := "old:colors" })).2.filter Event.isWrite).length = 1 ∧
    (UpdateMeshAdvancedRule "Disabled" exampleScene
        (some { cls := MeshAdvancedRuleClass.StaticMeshAdvancedRule,
                vertexColorStreamName := "old:colors" })).2
      = [Event.warning "old:colors" "mesh1:colors",
         Event.SetVertexColorStreamName "mesh1:colors"] :=
  C2_UpdateMeshAdvancedRule_repairs "Disabled" exampleScene
    { cls := MeshAdvancedRuleClass.StaticMeshAdvancedRule, vertexColorStreamName := "old:colors" }
    (Or.inr rfl) (by decide) (by decide)

/-- C3: when the stored name of the rule equals the sentinel,
`UpdateMeshAdvancedRule` returns the rule unchanged and produces no event (no
warning and no write), whatever the graph holds. -/
theorem C3_UpdateMeshAdvancedRule_sentinel_noop (s_advancedDisabledString : String)
    (scene : Scene) (r : IMeshAdvancedRule)
    (hsentinel : r.vertexColorStreamName = s_advancedDisabledString) :
    UpdateMeshAdvancedRule s_advancedDisabledString scene (some r) = (some r, []) :=
  UpdateMeshAdvancedRule_found s_advancedDisabledString scene r (Or.inl hsentinel)

/-- C3 on a graph that has vertex-colour content. -/
theorem C3_UpdateMeshAdvancedRule_sentinel_noop_witness :
    GetFirstVertexColorStream exampleScene.graph = "mesh1:colors" ∧
    UpdateMeshAdvancedRule "Disabled" exampleScene
        (some { cls := MeshAdvancedRuleClass.SkinMeshAdvancedRule,
                vertexColorStreamName := "Disabled" })
      = (some { cls := MeshAdvancedRuleClass.SkinMeshAdvancedRule,
                vertexColorStreamName := "Disabled" }, []) :=
  ⟨by decide,
    C3_UpdateMeshAdvancedRule_sentinel_noop "Disabled" exampleScene
      { cls := MeshAdvancedRuleClass.SkinMeshAdvancedRule, vertexColorStreamName := "Disabled" }
      rfl⟩

/-- C4: when the stored name of the rule is equal, character for character, to
the name of some node of the graph, with or without vertex-colour data on that
node, `UpdateMeshAdvancedRule` returns the rule unchanged and produces no
event. -/
theorem C4_UpdateMeshAdvancedRule_existing_name_noop (s_advancedDisabledString : String)
    (scene : Scene) (r : IMeshAdvancedRule) (n : Node) (hn : n ∈ scene.graph.nodes)
    (hname : r.vertexColorStreamName = n.name) :
    UpdateMeshAdvancedRule s_advancedDisabledString scene (some r) = (some r, []) := by
  apply UpdateMeshAdvancedRule_found
  right
  rw [hname]
  exact List.mem_map_of_mem Node.name hn

/-- C4 on a rule naming the node `mesh1`, which carries no vertex-colour
data. -/
theorem C4_UpdateMeshAdvancedRule_existing_name_noop_witness :
    ({ name := "mesh1", content := some IGraphObject.IMeshData } : Node).hasVertexColor = false ∧
    UpdateMeshAdvancedRule "Disabled" exampleScene
        (some { cls := MeshAdvancedRuleClass.StaticMeshAdvancedRule,
                vertexColorStreamName := "mesh1" })
      = (some { cls := MeshAdvancedRuleClass.StaticMeshAdvancedRule,
                vertexColorStreamName := "mesh1" }, []) :=
  ⟨rfl,
    C4_UpdateMeshAdvancedRule_existing_name_noop "Disabled" exampleScene
      { cls := MeshAdvancedRuleClass.StaticMeshAdvancedRule, vertexColorStreamName := "mesh1" }
      { name := "mesh1", content := some IGraphObject.IMeshData } (by decide) rfl⟩

/-- C5: for every action other than `Update`, `UpdateManifest` returns
`Ignored`, leaves the scene (so every rule of the manifest) unchanged and
produces no event; for `Update` it returns `Success`. -/
theorem C5_UpdateManifest_result (s_advancedDisabledString : String) (scene : Scene)
    (action : ManifestAction) :
    (action ≠ ManifestAction.Update →
      UpdateManifest s_advancedDisabledString scene action
        = (ProcessingResult.Ignored, scene, [])) ∧
    (UpdateManifest s_advancedDisabledString scene ManifestAction.Update).1
      = ProcessingResult.Success := by
  constructor
  · intro h
    simp [UpdateManifest, h]
  · simp [UpdateManifest]

/-- C5 on a scene whose manifest holds a stale rule. -/
theorem C5_UpdateManifest_result_witness :
    UpdateManifest "Disabled" exampleScene ManifestAction.ConstructDefault
      = (ProcessingResult.Ignored, exampleScene, []) ∧
    (UpdateManifest "Disabled" exampleScene ManifestAction.Update).1
      = ProcessingResult.Success :=
  ⟨(C5_UpdateManifest_result "Disabled" exampleScene ManifestAction.ConstructDefault).1
      (by decide),
    (C5_UpdateManifest_result "Disabled" exampleScene ManifestAction.Update).2⟩

/-- C6 fails as stated: on a graph without vertex-colour data the call on a
scene node group stores nothing, the rule container stays empty and no rule
holds the sentinel. -/
theorem C6_InitializeObject_group_counterexample :
    GetFirstVertexColorStream exampleSceneNoColor.graph = "" ∧
    InitializeObject "Disabled" exampleSceneNoColor
        (IManifestObject.sceneNodeGroup false "mesh1" [])
      = IManifestObject.sceneNodeGroup false "mesh1" [] := by
  constructor
  · decide
  · decide

/-- C6 as amended: on a static-mesh or skin-mesh advanced rule the call stores
the name `GetFirstVertexColorStream` returns, or the sentinel when that is
empty; on a scene node group it appends a new advanced rule (skin for a skin
group, static otherwise) holding that name when the name is not empty, and
leaves the group unchanged when it is empty. -/
theorem C6_InitializeObject_amended (s_advancedDisabledString : String) (scene : Scene) :
    (∀ r : IMeshAdvancedRule,
      (r.cls = MeshAdvancedRuleClass.StaticMeshAdvancedRule
        ∨ r.cls = MeshAdvancedRuleClass.SkinMeshAdvancedRule) →
      InitializeObject s_advancedDisabledString scene (IManifestObject.rule (IRule.meshAdvanced r))
        = IManifestObject.rule (IRule.meshAdvanced { r with vertexColorStreamName :=
            (if GetFirstVertexColorStream scene.graph = "" then s_advancedDisabledString
             else GetFirstVertexColorStream scene.graph) })) ∧
    (∀ (isSkinGroup : Bool) (name : String) (rules : List IRule),
      GetFirstVertexColorStream scene.graph ≠ "" →
      InitializeObject s_advancedDisabledString scene
          (IManifestObject.sceneNodeGroup isSkinGroup name rules)
        = IManifestObject.sceneNodeGroup isSkinGroup name
            (rules ++ [IRule.meshAdvanced
              { cls := if isSkinGroup then MeshAdvancedRuleClass.SkinMeshAdvancedRule
                  else MeshAdvancedRuleClass.StaticMeshAdvancedRule,
                vertexColorStreamName := GetFirstVertexColorStream scene.graph }])) ∧
    (∀ (isSkinGroup : Bool) (name : String) (rules : List IRule),
      GetFirstVertexColorStream scene.graph = "" →
      InitializeObject s_advancedDisabledString scene
          (IManifestObject.sceneNodeGroup isSkinGroup name rules)
        = IManifestObject.sceneNodeGroup isSkinGroup name rules) := by
  refine ⟨?_, ?_, ?_⟩
  · intro r hcls
    rcases hcls with h | h <;> simp [InitializeObject, h]
  · intro isSkinGroup name rules hne
    cases isSkinGroup <;> simp [InitializeObject, hne]
  · intro isSkinGroup name rules he
    simp [InitializeObject, he]

/-- C6 as amended, on a skin rule, on a mesh group of a graph with vertex
colours and on a skin group of a graph without. -/
theorem C6_InitializeObject_amended_witness :
    InitializeObject "Disabled" exampleSceneNoColor
        (IManifestObject.rule (IRule.meshAdvanced
          { cls := MeshAdvancedRuleClass.SkinMeshAdvancedRule, vertexColorStreamName := "" }))
      = IManifestObject.rule (IRule.meshAdvanced
          { cls := MeshAdvancedRuleClass.SkinMeshAdvancedRule,
            vertexColorStreamName := "Disabled" }) ∧
    InitializeObject "Disabled" exampleScene
        (IManifestObject.sceneNodeGroup false "mesh1" [IRule.other 7])
      = IManifestObject.sceneNodeGroup false "mesh1"
          [IRule.other 7,
           IRule.meshAdvanced { cls := MeshAdvancedRuleClass.StaticMeshAdvancedRule,
                                vertexColorStreamName := "mesh1:colors" }] ∧
    InitializeObject "Disabled" exampleSceneNoColor
        (IManifestObject.sceneNodeGroup true "skin1" [IRule.other 7])
      = IManifestObject.sceneNodeGroup true "skin1" [IRule.other 7] :=
  ⟨(C6_InitializeObject_amended "Disabled" exampleSceneNoColor).1
      { cls := MeshAdvancedRuleClass.SkinMeshAdvancedRule, vertexColorStreamName := "" }
      (Or.inr rfl),
    (C6_InitializeObject_amended "Disabled" exampleScene).2.1 false "mesh1" [IRule.other 7]
      (by decide),
    (C6_InitializeObject_amended "Disabled" exampleSceneNoColor).2.2 true "skin1"
      [IRule.other 7] (by decide)⟩

/-- C7: with action `Update`, the manifest after `UpdateManifest` is the
manifest of the specification: `validate` applied to every rule with the
vertex-colour capability in every scene node group, every other rule and every
entry that is not a scene node group kept, in the same number and order; the
graph is not changed. -/
theorem C7_UpdateManifest_validates_every_rule (s_advancedDisabledString : String)
    (scene : Scene) :
    (UpdateManifest s_advancedDisabledString scene ManifestAction.Update).2.1.manifest
      = validatedManifest s_advancedDisabledString scene ∧
    (UpdateManifest s_advancedDisabledString scene ManifestAction.Update).2.1.manifest.length
      = scene.manifest.length ∧
    (UpdateManifest s_advancedDisabledString scene ManifestAction.Update).2.1.graph
      = scene.graph := by
  have hm : (UpdateManifest s_advancedDisabledString scene ManifestAction.Update).2.1.manifest
      = validatedManifest s_advancedDisabledString scene := by
    simp only [UpdateManifest, UpdateMeshAdvancedRules, if_true]
    exact groupLoop_fst s_advancedDisabledString scene scene.manifest []
  refine ⟨hm, ?_, ?_⟩
  · rw [hm]
    simp [validatedManifest]
  · simp [UpdateManifest, UpdateMeshAdvancedRules]

/-- C10: after `UpdateMeshAdvancedRule` on a static-mesh or skin-mesh rule, the
stored name is the sentinel or the name of a node of the graph, and a second
call on the same scene returns that rule unchanged with no event. -/
theorem C10_UpdateMeshAdvancedRule_valid_and_idempotent (s_advancedDisabledString : String)
    (scene : Scene) (r : IMeshAdvancedRule)
    (hcls : r.cls = MeshAdvancedRuleClass.SkinMeshAdvancedRule
      ∨ r.cls = MeshAdvancedRuleClass.StaticMeshAdvancedRule) :
    ∃ updated : IMeshAdvancedRule,
      (UpdateMeshAdvancedRule s_advancedDisabledString scene (some r)).1 = some updated ∧
      (updated.vertexColorStreamName = s_advancedDisabledString
        ∨ updated.vertexColorStreamName ∈ scene.graph.GetNameStorage) ∧
      UpdateMeshAdvancedRule s_advancedDisabledString scene (some updated)
        = (some updated, []) := by
  by_cases hfound : r.vertexColorStreamName = s_advancedDisabledString
      ∨ r.vertexColorStreamName ∈ scene.graph.GetNameStorage
  · refine ⟨r, ?_, hfound, ?_⟩
    · rw [UpdateMeshAdvancedRule_found s_advancedDisabledString scene r hfound]
    · exact UpdateMeshAdvancedRule_found s_advancedDisabledString scene r hfound
  · have hne : r.vertexColorStreamName ≠ s_advancedDisabledString := fun h => hfound (Or.inl h)
    have habsent : r.vertexColorStreamName ∉ scene.graph.GetNameStorage :=
      fun h => hfound (Or.inr h)
    have hvalid : (if GetFirstVertexColorStream scene.graph = "" then s_advancedDisabledString
          else GetFirstVertexColorStream scene.graph) = s_advancedDisabledString
        ∨ (if GetFirstVertexColorStream scene.graph = "" then s_advancedDisabledString
          else GetFirstVertexColorStream scene.graph) ∈ scene.graph.GetNameStorage := by
      by_cases he : GetFirstVertexColorStream scene.graph = ""
      · left
        rw [if_pos he]
      · right
        rw [if_neg he]
        exact GetFirstVertexColorStream_mem scene.graph he
    refine ⟨{ r with vertexColorStreamName :=
        if GetFirstVertexColorStream scene.graph = "" then s_advancedDisabledString
        else GetFirstVertexColorStream scene.graph }, ?_, hvalid, ?_⟩
    · rw [UpdateMeshAdvancedRule_missing s_advancedDisabledString scene r hcls hne habsent]
    · exact UpdateMeshAdvancedRule_found s_advancedDisabledString scene _ hvalid

/-- C10 on the stale rule of the scenario of the specification. -/
theorem C10_UpdateMeshAdvancedRule_valid_and_idempotent_witness :
    ∃ updated : IMeshAdvancedRule,
      (UpdateMeshAdvancedRule "Disabled" exampleScene
        (some { cls := MeshAdvancedRuleClass.StaticMeshAdvancedRule,
                vertexColorStreamName := "old:colors" })).1 = some updated ∧
      (updated.vertexColorStreamName = "Disabled"
        ∨ updated.vertexColorStreamName ∈ exampleScene.graph.GetNameStorage) ∧
      UpdateMeshAdvancedRule "Disabled" exampleScene (some updated) = (some updated, []) :=
  C10_UpdateMeshAdvancedRule_valid_and_idempotent "Disabled" exampleScene
    { cls := MeshAdvancedRuleClass.StaticMeshAdvancedRule, vertexColorStreamName := "old:colors" }
    (Or.inr rfl)

end MeshAdvancedRule

namespace AssetImporterDragAndDropHandler

/-! ## The drag-and-drop handler -/

/-- While the importer runs, `DragEnter` changes neither the handler nor the
event. -/
theorem DragEnter_running (self : Handler) (event : QDropEvent)
    (h : self.m_isAssetImporterRunning = true) : DragEnter self event = (self, event) := by
  simp [DragEnter, h]

theorem crateIteratorLoop_nil_of_empty (files : List QFileInfo) (h : files.isEmpty = true) :
    crateIteratorLoop files = false := by
  cases files with
  | nil => rfl
  | cons x xs => simp at h

theorem crateUrlLoop_emptyFolders (urls : List QUrl)
    (h : ∀ url ∈ urls, url.isEmptyFolder = true) : crateUrlLoop urls = false := by
  induction urls with
  | nil => rfl
  | cons url rest ih =>
    have hu := h url (List.mem_cons_self _ _)
    have hrest : ∀ u ∈ rest, u.isEmptyFolder = true :=
      fun u hu => h u (List.mem_cons_of_mem _ hu)
    simp only [QUrl.isEmptyFolder, Bool.and_eq_true, Bool.not_eq_true'] at hu
    obtain ⟨⟨⟨hfiles, _⟩, hfile⟩, _⟩ := hu
    simp [crateUrlLoop, ContainCrateFiles, hfile, crateIteratorLoop_nil_of_empty _ hfiles,
      ih hrest]

theorem acceptUrlLoop_emptyFolders (urls : List QUrl) (m_dragAccepted : Bool)
    (h : ∀ url ∈ urls, url.isEmptyFolder = true) :
    acceptUrlLoop urls m_dragAccepted = (m_dragAccepted, false) := by
  induction urls with
  | nil => rfl
  | cons url rest ih =>
    have hu := h url (List.mem_cons_self _ _)
    have hrest : ∀ u ∈ rest, u.isEmptyFolder = true :=
      fun u hu => h u (List.mem_cons_of_mem _ hu)
    simp only [QUrl.isEmptyFolder, Bool.and_eq_true, Bool.not_eq_true'] at hu
    obtain ⟨⟨⟨hfiles, hsuffix⟩, _⟩, hroot⟩ := hu
    simp [acceptUrlLoop, hroot, hfiles, hsuffix, ih hrest]

/-- From a handler whose `m_dragAccepted` is false, a drag of empty folders
only is not accepted and leaves `m_dragAccepted` false. -/
theorem ProcessDragEnter_emptyFolders_from_cleared (self : Handler) (event : QDropEvent)
    (hflag : self.m_dragAccepted = false) (hacc : event.isAccepted = false)
    (h : ∀ url ∈ event.mimeData.urls, url.isEmptyFolder = true) :
    (ProcessDragEnter self event).1.m_dragAccepted = false ∧
    (ProcessDragEnter self event).2.isAccepted = false := by
  unfold ProcessDragEnter
  simp only [crateUrlLoop_emptyFolders _ h, acceptUrlLoop_emptyFolders _ _ h, hflag]
  split
  · split
    · exact ⟨rfl, hacc⟩
    · exact ⟨rfl, hacc⟩
  · exact ⟨hflag, hacc⟩

/-- C8, the code at a failing sequence of calls: the importer is opened and
closed, a file is dragged over the window and the drag is abandoned, the
importer is opened again, and a file is dragged and dropped while it runs.
`Drop` emits `OpenAssetImporterManager` while `m_isAssetImporterRunning` is
true, from either initial value of that flag. -/
theorem C8_Drop_emits_while_running :
    (run (initial false)
        [Step.OnStartAssetImporter, Step.OnStopAssetImporter, Step.DragEnter fileEvent,
         Step.OnStartAssetImporter, Step.DragEnter fileEvent, Step.Drop fileEvent]).2
      = [{ isAssetImporterRunning := true, fileList := ["C:/import/model.fbx"] }] ∧
    (run (initial true)
        [Step.OnStartAssetImporter, Step.OnStopAssetImporter, Step.DragEnter fileEvent,
         Step.OnStartAssetImporter, Step.DragEnter fileEvent, Step.Drop fileEvent]).2
      = [{ isAssetImporterRunning := true, fileList := ["C:/import/model.fbx"] }] := by
  constructor <;> decide

/-- C9, the code at a failing input: after a drag of a file that was accepted
and abandoned, `m_dragAccepted` is still true, and the drag of one empty folder
is accepted and leaves `m_dragAccepted` true. -/
theorem C9_ProcessDragEnter_accepts_empty_folder :
    (∀ url ∈ emptyFolderEvent.mimeData.urls, url.isEmptyFolder = true) ∧
    (run (initial false) [Step.DragEnter fileEvent]).1
      = { m_isAssetImporterRunning := false, m_dragAccepted := true } ∧
    ProcessDragEnter { m_isAssetImporterRunning := false, m_dragAccepted := true }
        emptyFolderEvent
      = ({ m_isAssetImporterRunning := false, m_dragAccepted := true },
         { emptyFolderEvent with isAccepted := true }) := by
  refine ⟨?_, ?_, ?_⟩ <;> decide

end AssetImporterDragAndDropHandler
